import Mathlib

/-!
Verification of the calendar, aggregation and parameter-building logic of the
Harvest MCP server (`harvest-mcp-server.py`).

Dates are embedded as proleptic-Gregorian ordinal day numbers (the value of
the `date.toordinal` value of Python): day 1 is January 1 of year 1.  All
integer arithmetic in the source uses the floor division and nonnegative
remainder of Python, which on positive divisors coincide with `Int.ediv` /
`Int.emod` (the `/` and `%` of `Int`).  Real-valued hour arithmetic
(Python floats) is modelled by exact rationals, and the `round` builtin of
Python by an explicit round-half-to-even on `ℚ`.
-/

namespace Harvest

/-- Python `calendar.isleap`. -/
def isLeapYear (y : ℤ) : Bool :=
  y % 4 == 0 && (y % 100 != 0 || y % 400 == 0)

/-- Number of days in a month (`calendar.monthrange(year, month)[1]` for valid months). -/
def daysInMonth (y m : ℤ) : ℤ :=
  if m = 2 then (if isLeapYear y then 29 else 28)
  else if m = 4 ∨ m = 6 ∨ m = 9 ∨ m = 11 then 30
  else 31

/-- Days strictly before month `m` in year `y` (the month offset used by
`date.toordinal`). -/
def daysBeforeMonth (y m : ℤ) : ℤ :=
  (if m = 1 then 0 else if m = 2 then 31 else if m = 3 then 59 else if m = 4 then 90
   else if m = 5 then 120 else if m = 6 then 151 else if m = 7 then 181
   else if m = 8 then 212 else if m = 9 then 243 else if m = 10 then 273
   else if m = 11 then 304 else 334)
  + (if 3 ≤ m ∧ isLeapYear y then 1 else 0)

/-- Proleptic Gregorian ordinal of a date, the value of `date(y, m, d).toordinal()`. -/
def toOrdinal (y m d : ℤ) : ℤ :=
  365 * (y - 1) + (y - 1) / 4 - (y - 1) / 100 + (y - 1) / 400 + daysBeforeMonth y m + d

/-- Weekday of an ordinal, as `date.weekday()`: 0 = Monday … 6 = Sunday. -/
def weekday (ord : ℤ) : ℤ :=
  (ord + 6) % 7

/-- Midsummer Eve as computed in the source: June 20 if it is a Friday,
otherwise the next Friday after June 20. -/
def midsummerEve (y : ℤ) : ℤ :=
  if weekday (toOrdinal y 6 20) = 4 then toOrdinal y 6 20
  else toOrdinal y 6 20 + (4 - weekday (toOrdinal y 6 20)) % 7

/-- The (month, day) of Easter Sunday by the Anonymous Gregorian algorithm,
exactly as in `get_finnish_public_holidays`. -/
def easterMD (y : ℤ) : ℤ × ℤ :=
  let a := y % 19
  let b := y / 100
  let c := y % 100
  let d := b / 4
  let e := b % 4
  let f := (b + 8) / 25
  let g := (b - f + 1) / 3
  let h := (19 * a + b - d - g + 15) % 30
  let i := c / 4
  let k := c % 4
  let l := (32 + 2 * e + 2 * i - h - k) % 7
  let m := (a + 11 * h + 22 * l) / 451
  ((h + l - 7 * m + 114) / 31, ((h + l - 7 * m + 114) % 31) + 1)

/-- Ordinal of Easter Sunday. -/
def easterOrd (y : ℤ) : ℤ :=
  toOrdinal y (easterMD y).1 (easterMD y).2

/-- Embedding of `get_finnish_public_holidays(year)`: the list of holiday ordinals, in the
order the source builds it (eight fixed-rule dates, then the four
Easter-relative dates appended by `extend`). -/
def get_finnish_public_holidays (y : ℤ) : List ℤ :=
  [toOrdinal y 1 1, toOrdinal y 1 6, toOrdinal y 5 1, midsummerEve y,
   toOrdinal y 12 6, toOrdinal y 12 24, toOrdinal y 12 25, toOrdinal y 12 26] ++
  [easterOrd y - 2, easterOrd y, easterOrd y + 1, easterOrd y + 39]

/-- Embedding of `count_working_days(year, month)`: days of the month that are weekdays
(Mon–Fri) and not Finnish public holidays. -/
def count_working_days (y m : ℤ) : ℕ :=
  (List.range (daysInMonth y m).toNat).countP
    (fun (d : ℕ) => decide (weekday (toOrdinal y m ((d : ℤ) + 1)) < 5 ∧
      toOrdinal y m ((d : ℤ) + 1) ∉ get_finnish_public_holidays y))

/-- Count of Monday–Friday dates of the month, before any holiday subtraction. -/
def weekdayCount (y m : ℤ) : ℕ :=
  (List.range (daysInMonth y m).toNat).countP
    (fun (d : ℕ) => decide (weekday (toOrdinal y m ((d : ℤ) + 1)) < 5))

/-- Day-of-year position of an ordinal inside year `y`:
`ord` falls within year `y` iff it is between Jan 1 and Dec 31 of `y`. -/
def withinYear (y ord : ℤ) : Prop :=
  toOrdinal y 1 1 ≤ ord ∧ ord ≤ toOrdinal y 12 31

instance (y ord : ℤ) : Decidable (withinYear y ord) := by
  unfold withinYear; infer_instance

-- sanity examples (concrete evaluation of the embedding)
example : weekday (toOrdinal 2025 2 1) = 5 := by decide
example : easterMD 2024 = (3, 31) := by decide
example : easterMD 2025 = (4, 20) := by decide
example : count_working_days 2025 2 = 20 := by decide

/-! ## Calendar lemmas -/

/-- The Easter month/day always lies in March 22–31 or April 1–26. -/
lemma easterMD_cases (y : ℤ) :
    ((easterMD y).1 = 3 ∧ 22 ≤ (easterMD y).2 ∧ (easterMD y).2 ≤ 31) ∨
    ((easterMD y).1 = 4 ∧ 1 ≤ (easterMD y).2 ∧ (easterMD y).2 ≤ 26) := by
  simp only [easterMD]
  omega

/-- Any valid (month, day) of year `y` has an ordinal within year `y`. -/
lemma ordinal_within (y m d : ℤ) (h1 : 1 ≤ m) (h2 : m ≤ 12) (h3 : 1 ≤ d)
    (h4 : d ≤ daysInMonth y m) : withinYear y (toOrdinal y m d) := by
  unfold withinYear toOrdinal daysBeforeMonth daysInMonth at *
  by_cases hl : isLeapYear y = true <;>
    interval_cases m <;> simp_all <;> omega

/-- The ordinal of Easter Sunday lies between Jan 1 + 80 and Jan 1 + 116. -/
lemma easterOrd_bounds (y : ℤ) :
    toOrdinal y 1 1 + 80 ≤ easterOrd y ∧ easterOrd y ≤ toOrdinal y 1 1 + 116 := by
  rcases easterMD_cases y with ⟨h1, h2, h3⟩ | ⟨h1, h2, h3⟩ <;>
    · unfold easterOrd
      rw [h1]
      unfold toOrdinal daysBeforeMonth
      by_cases hl : isLeapYear y = true <;> simp [hl] <;> omega

/-- December 31 is at least 364 days after January 1 of the same year. -/
lemma dec31_far (y : ℤ) : toOrdinal y 1 1 + 364 ≤ toOrdinal y 12 31 := by
  unfold toOrdinal daysBeforeMonth
  by_cases hl : isLeapYear y = true <;> simp [hl] <;> omega

/-- Midsummer Eve falls within its year. -/
lemma midsummer_within (y : ℤ) : withinYear y (midsummerEve y) := by
  have h20 := ordinal_within y 6 20 (by norm_num) (by norm_num) (by norm_num)
    (by norm_num [daysInMonth])
  have h26 := ordinal_within y 6 26 (by norm_num) (by norm_num) (by norm_num)
    (by norm_num [daysInMonth])
  have hd : toOrdinal y 6 26 = toOrdinal y 6 20 + 6 := by unfold toOrdinal; ring
  unfold midsummerEve
  split
  · exact h20
  · unfold withinYear weekday at *
    omega

/-- C4 (counterexample): for year 2024 the holiday list has 12 elements, not 11
as the claim states (the fixed-holiday list of the spec omits Midsummer Eve). -/
theorem holidays_2024_not_eleven : (get_finnish_public_holidays 2024).length ≠ 11 := by
  decide

/-- C4 (amended): for every year `y`, `get_finnish_public_holidays y` returns
exactly 12 holiday dates (eight fixed-rule dates plus four Easter-relative
dates), each falling within year `y`. -/
theorem holidays_twelve_within_year (y : ℤ) :
    (get_finnish_public_holidays y).length = 12 ∧
    ∀ d ∈ get_finnish_public_holidays y, withinYear y d := by
  refine ⟨rfl, ?_⟩
  intro d hd
  have hE := easterOrd_bounds y
  have hDec := dec31_far y
  have hfix : ∀ m dd : ℤ, 1 ≤ m → m ≤ 12 → 1 ≤ dd → dd ≤ daysInMonth y m →
      withinYear y (toOrdinal y m dd) := fun m dd a b c e => ordinal_within y m dd a b c e
  simp only [get_finnish_public_holidays, List.mem_append, List.mem_cons,
    List.not_mem_nil, or_false] at hd
  rcases hd with (h | h | h | h | h | h | h | h) | (h | h | h | h) <;> subst h
  · exact hfix 1 1 (by norm_num) (by norm_num) (by norm_num) (by norm_num [daysInMonth])
  · exact hfix 1 6 (by norm_num) (by norm_num) (by norm_num) (by norm_num [daysInMonth])
  · exact hfix 5 1 (by norm_num) (by norm_num) (by norm_num) (by norm_num [daysInMonth])
  · exact midsummer_within y
  · exact hfix 12 6 (by norm_num) (by norm_num) (by norm_num) (by norm_num [daysInMonth])
  · exact hfix 12 24 (by norm_num) (by norm_num) (by norm_num) (by norm_num [daysInMonth])
  · exact hfix 12 25 (by norm_num) (by norm_num) (by norm_num) (by norm_num [daysInMonth])
  · exact hfix 12 26 (by norm_num) (by norm_num) (by norm_num) (by norm_num [daysInMonth])
  all_goals
    have h11 := hfix 1 1 (by norm_num) (by norm_num) (by norm_num) (by norm_num [daysInMonth])
    unfold withinYear at *
    omega

/-- Witness for C4 (amended): the Easter Sunday entry of the 2024 list is a
member of the list and falls within 2024. -/
theorem holidays_twelve_within_year_witness :
    (easterOrd 2024 ∈ get_finnish_public_holidays 2024) ∧
    withinYear 2024 (easterOrd 2024) :=
  ⟨by decide, (holidays_twelve_within_year 2024).2 (easterOrd 2024) (by decide)⟩

/-- C5: the Easter Sunday computed by the Anonymous Gregorian algorithm is
March 31 for 2024 and April 20 for 2025, and the Easter-relative holidays in
the returned list are exactly Easter − 2 (Good Friday), Easter, Easter + 1
(Easter Monday) and Easter + 39 (Ascension Day). -/
theorem easter_reference_values_and_offsets :
    easterMD 2024 = (3, 31) ∧ easterMD 2025 = (4, 20) ∧
    ∀ y : ℤ, (get_finnish_public_holidays y).drop 8 =
      [easterOrd y - 2, easterOrd y, easterOrd y + 1, easterOrd y + 39] :=
  ⟨by decide, by decide, fun _ => rfl⟩

/-- Counting over `List.range` with a `+1` shift equals a filtered-card over
`Finset.Icc 1 n`. -/
lemma countP_range_card (n : ℕ) (p : ℕ → Prop) [DecidablePred p] :
    (List.range n).countP (fun d => decide (p (d + 1))) =
      ((Finset.Icc 1 n).filter p).card := by
  induction n with
  | zero => simp
  | succ n ih =>
    rw [List.range_succ, List.countP_append,
      ← Nat.Icc_insert_succ_right (by omega), Finset.filter_insert]
    by_cases hp : p (n + 1)
    · rw [if_pos hp, Finset.card_insert_of_not_mem (by simp [Finset.mem_Icc])]
      simp [hp, ih, List.countP_cons]
    · rw [if_neg hp]
      simp [hp, ih, List.countP_cons]

/-- C6: `count_working_days` counts exactly the dates of the month that are
weekdays (Mon–Fri) and not Finnish public holidays of the same year; for a
month whose dates contain no holiday it equals the plain Mon–Fri count; and
for February 2025 the count before holiday subtraction is 20 (as is the
working-day count, February 2025 containing no holiday). -/
theorem count_working_days_spec :
    (∀ y m : ℤ, count_working_days y m =
      ((Finset.Icc 1 (daysInMonth y m).toNat).filter
        (fun (d : ℕ) => weekday (toOrdinal y m (d : ℤ)) < 5 ∧
          toOrdinal y m (d : ℤ) ∉ get_finnish_public_holidays y)).card) ∧
    (∀ y m : ℤ, (∀ d ∈ Finset.Icc 1 (daysInMonth y m).toNat,
        toOrdinal y m (d : ℤ) ∉ get_finnish_public_holidays y) →
      count_working_days y m = weekdayCount y m) ∧
    weekdayCount 2025 2 = 20 ∧ count_working_days 2025 2 = 20 := by
  refine ⟨?_, ?_, by decide, by decide⟩
  · intro y m
    rw [count_working_days,
      ← countP_range_card (daysInMonth y m).toNat
        (fun (d : ℕ) => weekday (toOrdinal y m (d : ℤ)) < 5 ∧
          toOrdinal y m (d : ℤ) ∉ get_finnish_public_holidays y)]
    apply List.countP_congr
    intro x _
    simp only [decide_eq_true_eq]
    push_cast
    exact Iff.rfl
  · intro y m hno
    unfold count_working_days weekdayCount
    apply List.countP_congr
    intro x hx
    have hxlt : x < (daysInMonth y m).toNat := List.mem_range.mp hx
    have hn := hno (x + 1) (by simp [Finset.mem_Icc]; omega)
    simp only [decide_eq_true_eq]
    push_cast at hn ⊢
    simp [hn]

/-- Witness for the no-holiday hypothesis of C6: February 2025 contains no Finnish
public holiday, so its working-day count equals its weekday count. -/
theorem count_working_days_spec_witness :
    (∀ d ∈ Finset.Icc 1 (daysInMonth 2025 2).toNat,
      toOrdinal 2025 2 (d : ℤ) ∉ get_finnish_public_holidays 2025) ∧
    count_working_days 2025 2 = weekdayCount 2025 2 :=
  ⟨by decide, count_working_days_spec.2.1 2025 2 (by decide)⟩

/-! ## Strings: lower-casing and substring matching -/

/-- Python `str.lower`, restricted to ASCII and the Latin-1 letters
(U+00C0–U+00DE except the multiplication sign), which covers every character
relevant to the Finnish keyword lists. -/
def pyLower (c : Char) : Char :=
  if (65 ≤ c.toNat ∧ c.toNat ≤ 90) ∨
     (192 ≤ c.toNat ∧ c.toNat ≤ 222 ∧ c.toNat ≠ 215) then
    Char.ofNat (c.toNat + 32)
  else c

/-- Lower-case a string character by character. -/
def lowerStr (s : String) : String :=
  String.mk (s.data.map pyLower)

/-- Test that `pat` is an initial segment of the second list. -/
def leadsList : List Char → List Char → Bool
  | [], _ => true
  | _ :: _, [] => false
  | a :: pat, b :: l => a == b && leadsList pat l

/-- Test that `pat` occurs contiguously inside the second list, as the
Python containment check on strings; the empty pattern matches everything. -/
def hasSub (pat : List Char) : List Char → Bool
  | [] => leadsList pat []
  | c :: l => leadsList pat (c :: l) || hasSub pat l

/-- Python `kw in s` on strings. -/
def strContains (s kw : String) : Bool :=
  hasSub kw.data s.data

/-- Test whether any keyword of `kws` occurs inside `t`. -/
def matchesAny (kws : List String) (t : String) : Bool :=
  kws.any (fun kw => strContains t kw)

/-! ## Work-percentage aggregation -/

/-- Keywords marking unpaid absence. -/
def absence_keywords : List String := ["unpaid absence", "palkaton"]

/-- Keywords marking public holidays. -/
def holiday_keywords : List String := ["public holiday", "arkipyhä", "holiday"]

/-- Keywords marking paid leave. -/
def leave_keywords : List String :=
  ["day-off", "flextime", "saldo", "vacation", "loma", "sick", "sairas"]

/-- The four buckets a time entry is classified into. -/
inductive Category
  | actual_work
  | public_holiday
  | paid_leave
  | unpaid_absence
deriving DecidableEq

/-- The if/elif chain of `get_monthly_work_percentage`: classify a task name,
after lower-casing, by priority-ordered keyword matching. -/
def categorize (taskName : String) : Category :=
  let t := lowerStr taskName
  if matchesAny holiday_keywords t then .public_holiday
  else if matchesAny absence_keywords t then .unpaid_absence
  else if matchesAny leave_keywords t then .paid_leave
  else .actual_work

/-- A time entry as consumed by this server: the JSON fields it reads, each
possibly absent (`entry.get(...)` semantics). Hours are exact rationals. -/
structure TimeEntry where
  hours : Option ℚ
  task_name : Option String
  client_name : Option String
  is_closed : Option Bool
deriving DecidableEq

/-- The task name the source matches on: `entry.get("task", {}).get("name", "")`. -/
def taskNameOf (e : TimeEntry) : String :=
  e.task_name.getD ""

/-- Hours of an entry, with `entry.get("hours", 0)` semantics. -/
def hoursOf (e : TimeEntry) : ℚ :=
  e.hours.getD 0

/-- The five running hour accumulators of `get_monthly_work_percentage`. -/
structure Totals where
  total_hours : ℚ
  actual_work_hours : ℚ
  public_holiday_hours : ℚ
  paid_leave_hours : ℚ
  unpaid_absence_hours : ℚ
deriving DecidableEq

/-- Accumulation into the per-client mapping, creating the key at the end
when new (Python dict insertion order). -/
def addClient (bc : List (String × ℚ)) (k : String) (v : ℚ) : List (String × ℚ) :=
  if bc.any (fun p => p.1 == k) then
    bc.map (fun p => if p.1 == k then (p.1, p.2 + v) else p)
  else bc ++ [(k, v)]

/-- One iteration of the entry loop of `get_monthly_work_percentage`. -/
def step (st : Totals × List (String × ℚ)) (e : TimeEntry) : Totals × List (String × ℚ) :=
  let hours := hoursOf e
  match categorize (taskNameOf e) with
  | .public_holiday =>
      ({ st.1 with public_holiday_hours := st.1.public_holiday_hours + hours }, st.2)
  | .unpaid_absence =>
      ({ st.1 with unpaid_absence_hours := st.1.unpaid_absence_hours + hours }, st.2)
  | .paid_leave =>
      ({ st.1 with total_hours := st.1.total_hours + hours,
                   paid_leave_hours := st.1.paid_leave_hours + hours }, st.2)
  | .actual_work =>
      ({ st.1 with total_hours := st.1.total_hours + hours,
                   actual_work_hours := st.1.actual_work_hours + hours },
       addClient st.2 (e.client_name.getD "Unknown") hours)

/-- The full entry loop. -/
def processEntries (entries : List TimeEntry) : Totals × List (String × ℚ) :=
  entries.foldl step (⟨0, 0, 0, 0, 0⟩, [])

/-- Python `round` to an integer: round half to even. -/
def pyRound0 (q : ℚ) : ℤ :=
  let n := ⌊q⌋
  if q - n < 1 / 2 then n
  else if 1 / 2 < q - n then n + 1
  else if n % 2 = 0 then n else n + 1

/-- Python `round(q, 2)`. -/
def round2 (q : ℚ) : ℚ :=
  (pyRound0 (q * 100) : ℚ) / 100

/-- Python `round(q, 1)`. -/
def round1 (q : ℚ) : ℚ :=
  (pyRound0 (q * 10) : ℚ) / 10

/-- Zero-padded month as in the `f"{year}-{month:02d}"` period label. -/
def pad2 (n : ℤ) : String :=
  if 0 ≤ n ∧ n < 10 then "0" ++ toString n else toString n

/-- The result record of `get_monthly_work_percentage` (the JSON object it
serializes, with its rounded summary and breakdown figures). -/
structure MonthlySummary where
  period : String
  working_days : ℕ
  hours_per_day : ℚ
  expected_hours : ℚ
  total_logged_hours : ℚ
  unpaid_absence_hours : ℚ
  work_percentage : ℚ
  actual_work : ℚ
  public_holidays : ℚ
  paid_leave : ℚ
  unpaid_absence : ℚ
  by_client : List (String × ℚ)

/-- Embedding of `get_monthly_work_percentage(year, month, hours_per_day)`,
applied to the list of time entries fetched for the month (the fetch itself
is an external call and is passed in as `entries`). -/
def get_monthly_work_percentage (year month : ℤ) (hours_per_day : ℚ)
    (entries : List TimeEntry) : MonthlySummary :=
  let t := processEntries entries
  let working_days := count_working_days year month
  let expected_hours := (working_days : ℚ) * hours_per_day - t.1.unpaid_absence_hours
  let work_percentage := if expected_hours > 0 then t.1.total_hours / expected_hours * 100 else 0
  { period := toString year ++ "-" ++ pad2 month
    working_days := working_days
    hours_per_day := hours_per_day
    expected_hours := expected_hours
    total_logged_hours := round2 t.1.total_hours
    unpaid_absence_hours := round2 t.1.unpaid_absence_hours
    work_percentage := round1 work_percentage
    actual_work := round2 t.1.actual_work_hours
    public_holidays := round2 t.1.public_holiday_hours
    paid_leave := round2 t.1.paid_leave_hours
    unpaid_absence := round2 t.1.unpaid_absence_hours
    by_client := ((t.2.mergeSort (fun a b => decide (b.2 ≤ a.2))).map
      (fun p => (p.1, round2 p.2))) }

/-- Sum of the hours of the entries of `es` classified into category `c`. -/
def catSum (es : List TimeEntry) (c : Category) : ℚ :=
  ((es.filter (fun e => categorize (taskNameOf e) == c)).map hoursOf).sum

lemma catSum_cons (e : TimeEntry) (es : List TimeEntry) (c : Category) :
    catSum (e :: es) c =
      (if categorize (taskNameOf e) = c then hoursOf e else 0) + catSum es c := by
  by_cases h : categorize (taskNameOf e) = c <;> simp [catSum, List.filter_cons, h]

/-- The entry loop accumulates, on top of any starting state, exactly the
per-category hour sums; the total accumulates the actual-work and
paid-leave sums. -/
lemma foldl_step_totals (es : List TimeEntry) :
    ∀ st : Totals × List (String × ℚ),
      ((es.foldl step st).1.total_hours
        = st.1.total_hours + catSum es .actual_work + catSum es .paid_leave) ∧
      ((es.foldl step st).1.actual_work_hours
        = st.1.actual_work_hours + catSum es .actual_work) ∧
      ((es.foldl step st).1.public_holiday_hours
        = st.1.public_holiday_hours + catSum es .public_holiday) ∧
      ((es.foldl step st).1.paid_leave_hours
        = st.1.paid_leave_hours + catSum es .paid_leave) ∧
      ((es.foldl step st).1.unpaid_absence_hours
        = st.1.unpaid_absence_hours + catSum es .unpaid_absence) := by
  induction es with
  | nil => intro st; simp [catSum]
  | cons e es ih =>
    intro st
    obtain ⟨i1, i2, i3, i4, i5⟩ := ih (step st e)
    simp only [List.foldl_cons]
    cases hc : categorize (taskNameOf e) <;>
      refine ⟨?_, ?_, ?_, ?_, ?_⟩ <;>
        simp only [i1, i2, i3, i4, i5, catSum_cons, hc] <;>
        simp [step, hc] <;> try ring

/-- Per-category sums of `processEntries`. -/
lemma processEntries_spec (es : List TimeEntry) :
    (processEntries es).1.total_hours = catSum es .actual_work + catSum es .paid_leave ∧
    (processEntries es).1.actual_work_hours = catSum es .actual_work ∧
    (processEntries es).1.public_holiday_hours = catSum es .public_holiday ∧
    (processEntries es).1.paid_leave_hours = catSum es .paid_leave ∧
    (processEntries es).1.unpaid_absence_hours = catSum es .unpaid_absence := by
  have h := foldl_step_totals es (⟨0, 0, 0, 0, 0⟩, [])
  unfold processEntries
  obtain ⟨h1, h2, h3, h4, h5⟩ := h
  exact ⟨by rw [h1]; ring, by rw [h2]; ring, by rw [h3]; ring,
    by rw [h4]; ring, by rw [h5]; ring⟩

/-- Hours of all entries, grouped or not, add up category-wise. -/
lemma catSum_partition (es : List TimeEntry) :
    catSum es .actual_work + catSum es .public_holiday +
      catSum es .paid_leave + catSum es .unpaid_absence = (es.map hoursOf).sum := by
  induction es with
  | nil => simp [catSum]
  | cons e es ih =>
    cases hc : categorize (taskNameOf e) <;> simp [catSum_cons, hc] <;> linarith

/-- C2: the task name of every time entry is classified, case-insensitively by
substring matching, into exactly one of the four buckets, with public-holiday
keywords checked first, then unpaid-absence, then paid-leave, and the default
bucket being actual work; a name matching several keyword lists lands only in
the highest-priority one. -/
theorem categorize_priority (t : String) :
    (matchesAny holiday_keywords (lowerStr t) = true →
      categorize t = .public_holiday) ∧
    (matchesAny holiday_keywords (lowerStr t) = false →
      matchesAny absence_keywords (lowerStr t) = true →
      categorize t = .unpaid_absence) ∧
    (matchesAny holiday_keywords (lowerStr t) = false →
      matchesAny absence_keywords (lowerStr t) = false →
      matchesAny leave_keywords (lowerStr t) = true →
      categorize t = .paid_leave) ∧
    (matchesAny holiday_keywords (lowerStr t) = false →
      matchesAny absence_keywords (lowerStr t) = false →
      matchesAny leave_keywords (lowerStr t) = false →
      categorize t = .actual_work) := by
  unfold categorize
  refine ⟨fun h1 => ?_, fun h1 h2 => ?_, fun h1 h2 h3 => ?_, fun h1 h2 h3 => ?_⟩
  · simp [h1]
  · simp [h1, h2]
  · simp [h1, h2, h3]
  · simp [h1, h2, h3]

/-- Witness for C2: a task name matching the holiday, absence and leave
keyword lists at once lands only in the public-holiday bucket. -/
theorem categorize_priority_witness :
    matchesAny holiday_keywords (lowerStr "Unpaid Absence Holiday (sick loma)") = true ∧
    matchesAny absence_keywords (lowerStr "Unpaid Absence Holiday (sick loma)") = true ∧
    matchesAny leave_keywords (lowerStr "Unpaid Absence Holiday (sick loma)") = true ∧
    categorize "Unpaid Absence Holiday (sick loma)" = .public_holiday :=
  ⟨by decide, by decide, by decide,
    (categorize_priority "Unpaid Absence Holiday (sick loma)").1 (by decide)⟩

/-- C3: the percentage numerator (the running total of the loop) is exactly the
actual-work plus paid-leave category sums; public-holiday and unpaid-absence
hours are excluded from it (together with them it accounts for all hours). -/
theorem numerator_is_work_plus_leave (es : List TimeEntry) :
    (processEntries es).1.total_hours = catSum es .actual_work + catSum es .paid_leave ∧
    (processEntries es).1.total_hours + catSum es .public_holiday +
      catSum es .unpaid_absence = (es.map hoursOf).sum := by
  obtain ⟨h1, _, _, _, _⟩ := processEntries_spec es
  refine ⟨h1, ?_⟩
  rw [h1, ← catSum_partition es]
  ring

/-- The two time entries of the reference scenario of C1: 100 hours of
actual work and 10 hours of unpaid absence. -/
def demoEntries : List TimeEntry :=
  [{ hours := some 100, task_name := some "Software Development",
     client_name := some "Acme", is_closed := none },
   { hours := some 10, task_name := some "Palkaton vapaa",
     client_name := none, is_closed := none }]

/-- C1: `get_monthly_work_percentage` reports expected hours =
working-days × hours-per-day − unpaid-absence hours, and a work percentage of
logged ÷ expected × 100 (rounded to one decimal) when expected hours are
positive and 0 otherwise; in the reference scenario (February 2025: 20
working days, 7.5 h/day, 100 h actual work, 10 h unpaid absence) the expected
hours are 140 and the reported percentage is 71.4. -/
theorem work_percentage_formula :
    (∀ (year month : ℤ) (hpd : ℚ) (entries : List TimeEntry),
      (get_monthly_work_percentage year month hpd entries).expected_hours
        = (count_working_days year month : ℚ) * hpd - catSum entries .unpaid_absence ∧
      (get_monthly_work_percentage year month hpd entries).work_percentage
        = round1 (if (count_working_days year month : ℚ) * hpd
              - catSum entries .unpaid_absence > 0
            then (catSum entries .actual_work + catSum entries .paid_leave)
              / ((count_working_days year month : ℚ) * hpd
                - catSum entries .unpaid_absence) * 100
            else 0)) ∧
    count_working_days 2025 2 = 20 ∧
    (get_monthly_work_percentage 2025 2 7.5 demoEntries).expected_hours = 140 ∧
    (get_monthly_work_percentage 2025 2 7.5 demoEntries).work_percentage = 71.4 := by
  have hA : categorize "Software Development" = .actual_work := by decide
  have hB : categorize "Palkaton vapaa" = .unpaid_absence := by decide
  have hp : (processEntries demoEntries).1 = ⟨100, 100, 0, 0, 10⟩ := by
    simp [processEntries, demoEntries, step, taskNameOf, hoursOf, hA, hB]
  have hcw : count_working_days 2025 2 = 20 := by decide
  refine ⟨fun year month hpd entries => ?_, hcw, ?_, ?_⟩
  · obtain ⟨h1, _, _, _, h5⟩ := processEntries_spec entries
    unfold get_monthly_work_percentage
    exact ⟨by simp only [h5], by simp only [h1, h5]⟩
  · simp only [get_monthly_work_percentage, hp, hcw]
    norm_num
  · simp only [get_monthly_work_percentage, hp, hcw]
    unfold round1 pyRound0
    norm_num

/-! ## Tool wrappers: query parameters and request bodies -/

/-- A query-parameter or body value as the source builds it: a string, a raw
integer (`list_users` defaults `per_page` to the integer 200), or a raw
float (`hours` in `create_time_entry`). -/
inductive PV
  | s (v : String)
  | i (n : ℤ)
  | q (v : ℚ)
deriving DecidableEq

/-- Serialization of a boolean query value as a literal string. -/
def boolStr (b : Bool) : String :=
  if b then "true" else "false"

/-- Key present in a parameter mapping. -/
def hasKey (ps : List (String × PV)) (k : String) : Bool :=
  ps.any (fun p => p.1 == k)

/-- Value stored under a key. -/
def getParam (ps : List (String × PV)) (k : String) : Option PV :=
  (ps.find? (fun p => p.1 == k)).map (fun p => p.2)

/-- The `params` dict built by `list_users`: `is_active` always present
(defaulting to `"true"`), `page` only when provided, `per_page` defaulting to
the integer `200`. -/
def listUsersParams (is_active : Option Bool) (page per_page : Option ℤ) :
    List (String × PV) :=
  [("is_active", PV.s (match is_active with
    | some b => boolStr b
    | none => "true"))] ++
  (match page with | some p => [("page", PV.s (toString p))] | none => []) ++
  (match per_page with
    | some pp => [("per_page", PV.s (toString pp))]
    | none => [("per_page", PV.i 200)])

/-- The `params` dict built by `list_time_entries`. -/
def listTimeEntriesParams (user_id : Option ℤ) (from_date to_date : Option String)
    (is_running is_billable : Option Bool) : List (String × PV) :=
  (match user_id with | some u => [("user_id", PV.s (toString u))] | none => []) ++
  (match from_date with | some f => [("from", PV.s f)] | none => []) ++
  (match to_date with | some t => [("to", PV.s t)] | none => []) ++
  (match is_running with | some b => [("is_running", PV.s (boolStr b))] | none => []) ++
  (match is_billable with | some b => [("is_billable", PV.s (boolStr b))] | none => [])

/-- The `params` dict built by `list_projects`. -/
def listProjectsParams (client_id : Option ℤ) (is_active : Option Bool) :
    List (String × PV) :=
  (match client_id with | some c => [("client_id", PV.s (toString c))] | none => []) ++
  (match is_active with | some b => [("is_active", PV.s (boolStr b))] | none => [])

/-- The `params` dict built by `list_clients`. -/
def listClientsParams (is_active : Option Bool) : List (String × PV) :=
  match is_active with | some b => [("is_active", PV.s (boolStr b))] | none => []

/-- The `params` dict built by `list_tasks`. -/
def listTasksParams (is_active : Option Bool) : List (String × PV) :=
  match is_active with | some b => [("is_active", PV.s (boolStr b))] | none => []

/-- The `params` dict built by `get_unsubmitted_timesheets` before fetching:
`per_page` defaults to the string `"200"` when absent. -/
def getUnsubmittedParams (user_id : Option ℤ) (from_date to_date : Option String)
    (page per_page : Option ℤ) : List (String × PV) :=
  (match user_id with | some u => [("user_id", PV.s (toString u))] | none => []) ++
  (match from_date with | some f => [("from", PV.s f)] | none => []) ++
  (match to_date with | some t => [("to", PV.s t)] | none => []) ++
  (match page with | some p => [("page", PV.s (toString p))] | none => []) ++
  (match per_page with
    | some pp => [("per_page", PV.s (toString pp))]
    | none => [("per_page", PV.s "200")])

/-- The request body built by `create_time_entry`; `if notes:` is Python
truthiness, so `notes` is included only when provided and non-empty. -/
def createTimeEntryBody (project_id task_id : ℤ) (spent_date : String) (hours : ℚ)
    (notes : Option String) : List (String × PV) :=
  [("project_id", PV.i project_id), ("task_id", PV.i task_id),
   ("spent_date", PV.s spent_date), ("hours", PV.q hours)] ++
  (match notes with
    | some n => if n = "" then [] else [("notes", PV.s n)]
    | none => [])

/-- The request body built by `start_timer`; same `if notes:` truthiness. -/
def startTimerBody (project_id task_id : ℤ) (notes : Option String) :
    List (String × PV) :=
  [("project_id", PV.i project_id), ("task_id", PV.i task_id)] ++
  (match notes with
    | some n => if n = "" then [] else [("notes", PV.s n)]
    | none => [])

/-- The body of `stop_timer`: none is sent (the source passes no params). -/
def stopTimerBody : Option (List (String × PV)) :=
  none

/-- C8 (counterexample): with no argument provided, `list_users` still sends
an `is_active` query key (defaulted to `"true"`), so a key can be present
for an argument that was not provided. -/
theorem list_users_key_without_argument :
    ¬ (hasKey (listUsersParams none none none) "is_active"
        = (none : Option Bool).isSome) := by
  decide

/-- C8 (amended): for `list_time_entries`, `list_projects`, `list_clients`
and `list_tasks` a query key is present iff the corresponding optional
argument was provided; `list_users` always sends `is_active` (defaulting to
`"true"`) and `per_page` (defaulting to the integer 200), and
`get_unsubmitted_timesheets` always sends `per_page` (defaulting to the
string `"200"`); every provided boolean argument is serialized as the
literal string `"true"` or `"false"`. -/
theorem optional_params_amended :
    (∀ (uid : Option ℤ) (fd td : Option String) (ir ib : Option Bool),
      hasKey (listTimeEntriesParams uid fd td ir ib) "user_id" = uid.isSome ∧
      hasKey (listTimeEntriesParams uid fd td ir ib) "from" = fd.isSome ∧
      hasKey (listTimeEntriesParams uid fd td ir ib) "to" = td.isSome ∧
      hasKey (listTimeEntriesParams uid fd td ir ib) "is_running" = ir.isSome ∧
      hasKey (listTimeEntriesParams uid fd td ir ib) "is_billable" = ib.isSome ∧
      (∀ b, ir = some b →
        getParam (listTimeEntriesParams uid fd td ir ib) "is_running"
          = some (.s (boolStr b))) ∧
      (∀ b, ib = some b →
        getParam (listTimeEntriesParams uid fd td ir ib) "is_billable"
          = some (.s (boolStr b)))) ∧
    (∀ (cid : Option ℤ) (ia : Option Bool),
      hasKey (listProjectsParams cid ia) "client_id" = cid.isSome ∧
      hasKey (listProjectsParams cid ia) "is_active" = ia.isSome ∧
      (∀ b, ia = some b →
        getParam (listProjectsParams cid ia) "is_active" = some (.s (boolStr b)))) ∧
    (∀ ia : Option Bool,
      hasKey (listClientsParams ia) "is_active" = ia.isSome ∧
      (∀ b, ia = some b →
        getParam (listClientsParams ia) "is_active" = some (.s (boolStr b)))) ∧
    (∀ ia : Option Bool,
      hasKey (listTasksParams ia) "is_active" = ia.isSome ∧
      (∀ b, ia = some b →
        getParam (listTasksParams ia) "is_active" = some (.s (boolStr b)))) ∧
    (∀ (ia : Option Bool) (p pp : Option ℤ),
      hasKey (listUsersParams ia p pp) "page" = p.isSome ∧
      hasKey (listUsersParams ia p pp) "is_active" = true ∧
      hasKey (listUsersParams ia p pp) "per_page" = true ∧
      getParam (listUsersParams ia p pp) "is_active"
        = some (.s (match ia with | some b => boolStr b | none => "true")) ∧
      (pp = none → getParam (listUsersParams ia p pp) "per_page" = some (.i 200)) ∧
      (∀ b, ia = some b →
        getParam (listUsersParams ia p pp) "is_active" = some (.s (boolStr b)))) ∧
    (∀ (uid : Option ℤ) (fd td : Option String) (p pp : Option ℤ),
      hasKey (getUnsubmittedParams uid fd td p pp) "user_id" = uid.isSome ∧
      hasKey (getUnsubmittedParams uid fd td p pp) "from" = fd.isSome ∧
      hasKey (getUnsubmittedParams uid fd td p pp) "to" = td.isSome ∧
      hasKey (getUnsubmittedParams uid fd td p pp) "page" = p.isSome ∧
      hasKey (getUnsubmittedParams uid fd td p pp) "per_page" = true ∧
      (pp = none →
        getParam (getUnsubmittedParams uid fd td p pp) "per_page"
          = some (.s "200"))) := by
  refine ⟨?_, ?_, ?_, ?_, ?_, ?_⟩
  · intro uid fd td ir ib
    cases uid <;> cases fd <;> cases td <;> cases ir <;> cases ib <;>
      simp [listTimeEntriesParams, hasKey, getParam]
  · intro cid ia
    cases cid <;> cases ia <;> simp [listProjectsParams, hasKey, getParam]
  · intro ia
    cases ia <;> simp [listClientsParams, hasKey, getParam]
  · intro ia
    cases ia <;> simp [listTasksParams, hasKey, getParam]
  · intro ia p pp
    cases ia <;> cases p <;> cases pp <;> simp [listUsersParams, hasKey, getParam]
  · intro uid fd td p pp
    cases uid <;> cases fd <;> cases td <;> cases p <;> cases pp <;>
      simp [getUnsubmittedParams, hasKey, getParam]

/-- Witness for C8 (amended): a provided `is_running=true` is serialized as
the literal string `"true"`, and an absent `per_page` in `list_users` is
sent as the integer 200. -/
theorem optional_params_amended_witness :
    ((some true : Option Bool) = some true) ∧
    getParam (listTimeEntriesParams none none none (some true) none) "is_running"
      = some (.s (boolStr true)) ∧
    getParam (listUsersParams none none none) "per_page" = some (.i 200) :=
  ⟨rfl,
    (optional_params_amended.1 none none none (some true) none).2.2.2.2.2.1 true rfl,
    (optional_params_amended.2.2.2.2.1 none none none).2.2.2.2.1 rfl⟩

/-- C9 (counterexample): `create_time_entry` called with `notes` provided as
the empty string (non-null) omits the `notes` field from the body, because
the source tests `if notes:` (Python truthiness), not `if notes is not None:`. -/
theorem create_time_entry_empty_notes_dropped :
    ¬ (hasKey (createTimeEntryBody 1 2 "2025-06-01" 8 (some "")) "notes"
        = (some ("" : String)).isSome) := by
  decide

/-- C9 (amended): the bodies of `create_time_entry` and `start_timer` contain
exactly the required fields plus `notes` when it is provided and non-empty
(a provided empty string is also omitted, by truthiness); `stop_timer`
sends no body. -/
theorem body_fields_amended :
    (∀ (pid tid : ℤ) (sd : String) (h : ℚ) (notes : Option String),
      (createTimeEntryBody pid tid sd h notes).map Prod.fst
        = ["project_id", "task_id", "spent_date", "hours"] ++
          (match notes with
            | some n => if n = "" then [] else ["notes"]
            | none => []) ∧
      getParam (createTimeEntryBody pid tid sd h notes) "project_id" = some (.i pid) ∧
      getParam (createTimeEntryBody pid tid sd h notes) "task_id" = some (.i tid) ∧
      getParam (createTimeEntryBody pid tid sd h notes) "spent_date" = some (.s sd) ∧
      getParam (createTimeEntryBody pid tid sd h notes) "hours" = some (.q h) ∧
      (∀ n, notes = some n → n ≠ "" →
        getParam (createTimeEntryBody pid tid sd h notes) "notes" = some (.s n))) ∧
    (∀ (pid tid : ℤ) (notes : Option String),
      (startTimerBody pid tid notes).map Prod.fst
        = ["project_id", "task_id"] ++
          (match notes with
            | some n => if n = "" then [] else ["notes"]
            | none => []) ∧
      getParam (startTimerBody pid tid notes) "project_id" = some (.i pid) ∧
      getParam (startTimerBody pid tid notes) "task_id" = some (.i tid) ∧
      (∀ n, notes = some n → n ≠ "" →
        getParam (startTimerBody pid tid notes) "notes" = some (.s n))) ∧
    stopTimerBody = none := by
  refine ⟨?_, ?_, rfl⟩
  · intro pid tid sd h notes
    rcases notes with _ | n
    · simp [createTimeEntryBody, getParam]
    · by_cases hn : n = "" <;> simp [createTimeEntryBody, getParam, hn]
  · intro pid tid notes
    rcases notes with _ | n
    · simp [startTimerBody, getParam]
    · by_cases hn : n = "" <;> simp [startTimerBody, getParam, hn]

/-- Witness for C9 (amended): a non-empty provided note lands in the body. -/
theorem body_fields_amended_witness :
    ((some "standup" : Option String) = some "standup") ∧ ("standup" ≠ "") ∧
    getParam (createTimeEntryBody 1 2 "2025-06-01" 8 (some "standup")) "notes"
      = some (.s "standup") :=
  ⟨rfl, by decide,
    (body_fields_amended.1 1 2 "2025-06-01" 8 (some "standup")).2.2.2.2.2
      "standup" rfl (by decide)⟩

/-! ## `get_unsubmitted_timesheets`: client-side filtering -/

/-- The fields of the fetched `time_entries` response that
`get_unsubmitted_timesheets` reads, each with `response.get` semantics. -/
structure TEResponse where
  time_entries : Option (List TimeEntry)
  per_page : Option ℤ
  page : Option ℤ
  links : Option (List (String × String))

/-- The re-wrapped response `get_unsubmitted_timesheets` returns. -/
structure FilteredResponse where
  time_entries : List TimeEntry
  per_page : ℤ
  total_pages : ℤ
  total_entries : ℤ
  next_page : Option ℤ
  previous_page : Option ℤ
  page : ℤ
  links : List (String × String)

/-- The pure part of `get_unsubmitted_timesheets`, applied to the fetched
response: keep entries whose `is_closed` is not truthy (missing counts as
false), re-wrap with `total_pages = 1`. -/
def get_unsubmitted_timesheets (r : TEResponse) : FilteredResponse :=
  let unsubmitted := (r.time_entries.getD []).filter (fun e => !(e.is_closed.getD false))
  { time_entries := unsubmitted
    per_page := r.per_page.getD (unsubmitted.length : ℤ)
    total_pages := 1
    total_entries := (unsubmitted.length : ℤ)
    next_page := none
    previous_page := none
    page := r.page.getD 1
    links := r.links.getD [] }

/-- C7: on a fetched response whose entries all carry the closed flag,
`get_unsubmitted_timesheets` keeps exactly the entries with a false closed
flag, in their original relative order; `total_entries` is the kept count,
`total_pages` is 1, and the fetched pagination links pass through unmodified. -/
theorem unsubmitted_filter_spec (r : TEResponse) (es : List TimeEntry)
    (hes : r.time_entries = some es)
    (hall : ∀ e ∈ es, e.is_closed.isSome = true) :
    (get_unsubmitted_timesheets r).time_entries
      = es.filter (fun e => e.is_closed == some false) ∧
    (get_unsubmitted_timesheets r).total_entries
      = ((es.filter (fun e => e.is_closed == some false)).length : ℤ) ∧
    (get_unsubmitted_timesheets r).total_pages = 1 ∧
    (∀ l, r.links = some l → (get_unsubmitted_timesheets r).links = l) := by
  have hfe : (r.time_entries.getD []).filter (fun e => !(e.is_closed.getD false))
      = es.filter (fun e => e.is_closed == some false) := by
    rw [hes]
    simp only [Option.getD_some]
    apply List.filter_congr
    intro e he
    have := hall e he
    rcases hcl : e.is_closed with _ | b
    · rw [hcl] at this; simp at this
    · cases b <;> simp [hcl]
  unfold get_unsubmitted_timesheets
  refine ⟨hfe, by rw [hfe], rfl, ?_⟩
  intro l hl
  simp [hl]

/-- The fetched entries of the C7 witness scenario: one closed entry between
two open ones. -/
def demoFetched : List TimeEntry :=
  [{ hours := none, task_name := some "a", client_name := none, is_closed := some false },
   { hours := none, task_name := some "b", client_name := none, is_closed := some true },
   { hours := none, task_name := some "c", client_name := none, is_closed := some false }]

/-- The fetched response of the C7 witness scenario. -/
def demoResponse : TEResponse :=
  { time_entries := some demoFetched
    per_page := some 50
    page := some 1
    links := some [("next", "u")] }

/-- Witness for C7: on the concrete three-entry response the filter keeps the
two open entries, in order, with the envelope fields as claimed. -/
theorem unsubmitted_filter_spec_witness :
    (demoResponse.time_entries = some demoFetched) ∧
    (∀ e ∈ demoFetched, e.is_closed.isSome = true) ∧
    (get_unsubmitted_timesheets demoResponse).total_pages = 1 :=
  ⟨rfl, by decide,
    (unsubmitted_filter_spec demoResponse demoFetched rfl (by decide)).2.2.1⟩

/-- C10: a fetched entry with no `is_closed` field at all is treated as
unsubmitted and kept; an entry is dropped only when `is_closed` is present
and true. -/
theorem missing_closed_flag_kept (r : TEResponse) (es : List TimeEntry)
    (e : TimeEntry) (hes : r.time_entries = some es) (he : e ∈ es) :
    (e.is_closed = none → e ∈ (get_unsubmitted_timesheets r).time_entries) ∧
    (e ∉ (get_unsubmitted_timesheets r).time_entries → e.is_closed = some true) := by
  unfold get_unsubmitted_timesheets
  simp only [hes, Option.getD_some]
  constructor
  · intro h0
    exact List.mem_filter.mpr ⟨he, by simp [h0]⟩
  · intro hnot
    by_contra hne
    apply hnot
    refine List.mem_filter.mpr ⟨he, ?_⟩
    rcases hcl : e.is_closed with _ | b
    · simp
    · cases b
      · simp
      · exact absurd hcl hne

/-- An entry whose JSON record has no `is_closed` field. -/
def demoNoFlag : TimeEntry :=
  { hours := none, task_name := some "d", client_name := none, is_closed := none }

/-- The fetched response of the C10 witness scenario. -/
def demoResponseNoFlag : TEResponse :=
  { time_entries := some [demoNoFlag]
    per_page := none
    page := none
    links := none }

/-- Witness for C10: the flagless entry is kept. -/
theorem missing_closed_flag_kept_witness :
    (demoResponseNoFlag.time_entries = some [demoNoFlag]) ∧
    (demoNoFlag ∈ [demoNoFlag]) ∧ (demoNoFlag.is_closed = none) ∧
    demoNoFlag ∈ (get_unsubmitted_timesheets demoResponseNoFlag).time_entries :=
  ⟨rfl, List.mem_singleton.mpr rfl, rfl,
    (missing_closed_flag_kept demoResponseNoFlag [demoNoFlag] demoNoFlag rfl
      (List.mem_singleton.mpr rfl)).1 rfl⟩

end Harvest
